import Mathlib

/-! Verification of the FileCrypt solver service (src/api/index.js).

A shallow embedding of the single source file `src/api/index.js`, an Express
service that drives a headless browser to harvest download links from
FileCrypt container pages and caches them in in-memory sessions.

Modelling conventions:

* JavaScript `Date.now()` is an explicit `now : Nat` parameter (milliseconds).
* `uuidv4()` and `puppeteer.launch(...)` are explicit parameters (`nid` for the
  fresh session id, `nb` for the numeric handle of the freshly launched
  browser instance).
* The global `activeSessions` JavaScript `Map` is an insertion-ordered
  association list `Store`; `Map.get/set/delete` are `storeGet/storeSet/
  storeDelete` with the same first-occurrence semantics (keys are unique in
  every store the code builds).
* A session's `solvedLinks` `Map` (keyed by link url) is an insertion-ordered
  `List LinkRec`; `Map.set` is `mapSet` (replace in place, else append), and
  `Array.from(map.values())` is the list itself.
* Browser side effects are tracked as data: each embedded operation returns
  the list of browser handles whose `close()` was attempted, and the solve
  workflow additionally counts `page.close()` calls.
* The browser interaction of `/solve-filecrypt` (navigation, CAPTCHA probe,
  the 120 s poll for `a[href*="gofile.io"]` anchors) is abstracted by an
  `ExtractOutcome` parameter: either the extracted `{url, text}` records, or
  the timeout of `waitForSelector`.
-/

/-- One resolved link: the `{url: link.href, text: link.textContent.trim()}`
records built in the `page.evaluate` callback of `/solve-filecrypt`. -/
structure LinkRec where
  url : String
  text : String
deriving Repr, DecidableEq

/-- A session record, as built at `src/api/index.js:38-44`: `id` is the
`uuidv4()` value, `filecryptId` the parsed site id, `browser` the handle of
the owned browser instance, `createdAt` the creation time in ms, and
`solvedLinks` the url-keyed link map (insertion-ordered association list). -/
structure Session where
  id : String
  filecryptId : String
  browser : Nat
  createdAt : Nat
  solvedLinks : List LinkRec
deriving Repr, DecidableEq

/-- The global `activeSessions` map: insertion-ordered list of
(filecryptId, session) pairs. -/
abbrev Store : Type := List (String × Session)

/-- Embeds `activeSessions.get(k)` (and `has(k)` via `isSome`). -/
def storeGet : Store → String → Option Session
  | [], _ => none
  | e :: rest, k => if e.1 = k then some e.2 else storeGet rest k

/-- Embeds `activeSessions.set(k, v)`: replace the entry for `k` in place, else
append (JavaScript `Map.set` semantics). -/
def storeSet : Store → String → Session → Store
  | [], k, v => [(k, v)]
  | e :: rest, k, v => if e.1 = k then (k, v) :: rest else e :: storeSet rest k v

/-- Embeds `activeSessions.delete(k)`: remove the entry for `k`. -/
def storeDelete : Store → String → Store
  | [], _ => []
  | e :: rest, k => if e.1 = k then rest else e :: storeDelete rest k

/-- Embeds `session.solvedLinks.get(u)` on the url-keyed link map. -/
def mapGet : List LinkRec → String → Option LinkRec
  | [], _ => none
  | r :: rest, u => if r.url = u then some r else mapGet rest u

/-- Embeds `session.solvedLinks.set(link.url, link)`: replace the record with the
same url in place, else append (JavaScript `Map.set` semantics). -/
def mapSet : List LinkRec → LinkRec → List LinkRec
  | [], l => [l]
  | r :: rest, l => if r.url = l.url then l :: rest else r :: mapSet rest l

/-- Embeds `gofileLinks.forEach(link => session.solvedLinks.set(link.url, link))`
(src/api/index.js:97-99). -/
def mergeLinks (m : List LinkRec) (links : List LinkRec) : List LinkRec :=
  links.foldl mapSet m

/-- The last record in `links` whose url is `u` (specification device for the
last-write-wins property of `mergeLinks`). -/
def lastByUrl (links : List LinkRec) (u : String) : Option LinkRec :=
  links.reverse.find? (fun r => r.url == u)

/-! ## The FileCrypt id regex

Both endpoints run
`filecryptUrl.match(/filecrypt\.co\/(?:Container\/|Link\/)([A-Z0-9]+)/i)`
and use capture group 1. The embedding below implements exactly this
unanchored, case-insensitive, leftmost-match, greedy semantics on the
character list of the input string. -/

/-- The character class `[A-Z0-9]` under the `i` flag: ASCII letters (either
case) and digits. -/
def isAlnumAscii (c : Char) : Bool :=
  ('A' ≤ c && c ≤ 'Z') || ('a' ≤ c && c ≤ 'z') || ('0' ≤ c && c ≤ '9')

/-- Case-insensitive character comparison (the regex `i` flag). -/
def ciEq (a b : Char) : Bool := a.toLower == b.toLower

/-- Match a literal pattern case-insensitively at the head of the input,
returning the remaining input on success. -/
def matchLitCI : List Char → List Char → Option (List Char)
  | [], cs => some cs
  | _ :: _, [] => none
  | p :: ps, c :: cs => if ciEq p c then matchLitCI ps cs else none

/-- The literal `filecrypt\.co\/` of the regex. -/
def litSite : List Char :=
  ['f', 'i', 'l', 'e', 'c', 'r', 'y', 'p', 't', '.', 'c', 'o', '/']

/-- The literal `Container\/` alternative of the regex. -/
def litContainer : List Char :=
  ['C', 'o', 'n', 't', 'a', 'i', 'n', 'e', 'r', '/']

/-- The literal `Link\/` alternative of the regex. -/
def litLink : List Char := ['L', 'i', 'n', 'k', '/']

/-- Greedily take the maximal run of `[A-Z0-9]` (with `i`) characters,
returning the run and the rest. -/
def takeAlnum : List Char → List Char × List Char
  | [] => ([], [])
  | c :: cs =>
    if isAlnumAscii c then
      let r := takeAlnum cs
      (c :: r.1, r.2)
    else ([], c :: cs)

/-- Attempt the whole regex at the current position, returning capture
group 1 (`[A-Z0-9]+`, greedy, at least one char) on success. -/
def matchAt (cs : List Char) : Option String :=
  match matchLitCI litSite cs with
  | none => none
  | some rest =>
    match
      (match matchLitCI litContainer rest with
       | some r => some r
       | none => matchLitCI litLink rest) with
    | none => none
    | some r =>
      match takeAlnum r with
      | ([], _) => none
      | (c :: idRest, _) => some (String.mk (c :: idRest))

/-- Unanchored leftmost match: try every start position left to right. -/
def scanMatch : List Char → Option String
  | [] => none
  | c :: cs =>
    match matchAt (c :: cs) with
    | some s => some s
    | none => scanMatch cs

/-- Embeds the full `filecryptUrl.match(...)` call of both endpoints,
restricted to capture group 1; `none` models a `null` match result. -/
def extractFilecryptId (url : String) : Option String :=
  scanMatch url.data

/-! ## Session store -/

/-- The 30-minute session time-to-live, `30 * 60 * 1000` ms
(src/api/index.js:21 and 174). -/
def threshold : Nat := 30 * 60 * 1000

/-- Embeds `getFileCryptSession(filecryptId)` (src/api/index.js:16-48). `now` stands
for `Date.now()`, `nid` for the `uuidv4()` drawn when a session is created,
`nb` for the handle of the browser that `puppeteer.launch` would return.
Returns the session handed back to the caller, the updated store, and the
list of browser handles whose `close()` was attempted. -/
def getFileCryptSession (st : Store) (fid : String) (now : Nat)
    (nid : String) (nb : Nat) : Session × Store × List Nat :=
  match storeGet st fid with
  | some session =>
    if now - session.createdAt < threshold then
      (session, st, [])
    else
      let st' := storeDelete st fid
      let fresh : Session := ⟨nid, fid, nb, now, []⟩
      (fresh, storeSet st' fid fresh, [session.browser])
  | none =>
    let fresh : Session := ⟨nid, fid, nb, now, []⟩
    (fresh, storeSet st fid fresh, [])

/-- Embeds `/cleanup-sessions` (src/api/index.js:171-201): iterate the store in
insertion order; for each session with `now - createdAt > threshold`, attempt
`browser.close()` and delete the entry. Returns the surviving store, the
`cleanedCount`, and the closed browser handles in order. -/
def sweep : Store → Nat → Store × Nat × List Nat
  | [], _ => ([], 0, [])
  | (k, s) :: rest, now =>
    let r := sweep rest now
    if now - s.createdAt > threshold then (r.1, r.2.1 + 1, s.browser :: r.2.2)
    else ((k, s) :: r.1, r.2.1, r.2.2)

/-! ## Endpoint handlers -/

/-- Response of `/solve-filecrypt` (body and status are recovered by
`solveStatus`). `invalid` is the 400 `Invalid FileCrypt URL` response,
`ok links sid` the success body (`links` is the freshly extracted list),
`timedOut sid` the `success:false` timeout body, `unexpected` the 500
response of the outer `catch`. -/
inductive SolveResp where
  | invalid
  | ok (links : List LinkRec) (sessionId : String)
  | timedOut (sessionId : String)
  | unexpected
deriving Repr, DecidableEq

/-- HTTP status of each `/solve-filecrypt` response
(`res.status(400)`, plain `res.json` = 200, `res.status(500)`). -/
def solveStatus : SolveResp → Nat
  | .invalid => 400
  | .ok _ _ => 200
  | .timedOut _ => 200
  | .unexpected => 500

/-- Outcome of the browser interaction of one `/solve-filecrypt` run:
either `waitForSelector('a[href*="gofile.io"]')` succeeded and
`page.evaluate` extracted `links`, or it timed out after 120 s. -/
inductive ExtractOutcome where
  | success (links : List LinkRec)
  | timeout
deriving Repr, DecidableEq

/-- Result of one `/solve-filecrypt` request: response, resulting store,
number of `page.close()` calls, and browser handles whose `close()` was
attempted. -/
structure SolveResult where
  resp : SolveResp
  store : Store
  pagesClosed : Nat
  released : List Nat
deriving Repr, DecidableEq

/-- The `/solve-filecrypt` handler (src/api/index.js:51-126) for a string
`filecryptUrl`. The regex is tried first; on failure the 400 response is
returned with no browser interaction. Otherwise the session is obtained via
`getFileCryptSession` and the browser interaction (abstracted by `outcome`)
either yields links — which are merged into the session's `solvedLinks` map
in place (modelled by writing the updated session back) — or times out; the
page is closed in both branches. -/
def solveFilecrypt (st : Store) (url : String) (now : Nat) (nid : String)
    (nb : Nat) (outcome : ExtractOutcome) : SolveResult :=
  match extractFilecryptId url with
  | none => ⟨.invalid, st, 0, []⟩
  | some fid =>
    let g := getFileCryptSession st fid now nid nb
    let session := g.1
    match outcome with
    | .timeout => ⟨.timedOut session.id, g.2.1, 1, g.2.2⟩
    | .success links =>
      let session' : Session :=
        ⟨session.id, session.filecryptId, session.browser, session.createdAt,
         mergeLinks session.solvedLinks links⟩
      ⟨.ok links session.id, storeSet g.2.1 fid session', 1, g.2.2⟩

/-- Response of `/get-solved-links` (status recovered by `getLinksStatus`). -/
inductive GetLinksResp where
  | invalid
  | notFound
  | forbidden
  | ok (links : List LinkRec) (sessionId : String)
  | unexpected
deriving Repr, DecidableEq

/-- HTTP status of each `/get-solved-links` response. -/
def getLinksStatus : GetLinksResp → Nat
  | .invalid => 400
  | .notFound => 404
  | .forbidden => 403
  | .ok _ _ => 200
  | .unexpected => 500

/-- The guard `sessionId && session.id !== sessionId`
(src/api/index.js:149): a missing `sessionId` is `undefined` (falsy) and the
empty string is falsy too, so only a non-empty supplied id is compared. -/
def sidMismatch (stored : String) : Option String → Bool
  | none => false
  | some s => (s ≠ "" : Bool) && (stored ≠ s : Bool)

/-- The `/get-solved-links` handler (src/api/index.js:129-168) for a string
`filecryptUrl` and optional `sessionId`. Note the session lookup is
`activeSessions.has` only: no expiry check and no dependence on the current
time. -/
def getSolvedLinks (st : Store) (url : String) (sid : Option String) :
    GetLinksResp :=
  match extractFilecryptId url with
  | none => .invalid
  | some fid =>
    match storeGet st fid with
    | none => .notFound
    | some session =>
      if sidMismatch session.id sid then .forbidden
      else .ok session.solvedLinks session.id

/-- A JSON body field as the handlers receive it: `jstr s` is a string
value, `jmissing` an absent field (JavaScript `undefined`), `jother` any
non-string JSON value (number, boolean, null, array, object). In JavaScript,
`filecryptUrl.match(...)` throws a `TypeError` unless the value is a string
(JSON values carry no callable `match` property), and the route's
`try`/`catch` converts the throw into the 500 response. -/
inductive JsonVal where
  | jstr (s : String)
  | jmissing
  | jother
deriving Repr, DecidableEq

/-- Embeds `/solve-filecrypt` at the request-body level: a non-string
`filecryptUrl` makes `.match` throw before any session or browser work, so
the outer `catch` answers 500 with the store untouched. -/
def solveEndpoint (st : Store) (body : JsonVal) (now : Nat) (nid : String)
    (nb : Nat) (outcome : ExtractOutcome) : SolveResult :=
  match body with
  | .jstr url => solveFilecrypt st url now nid nb outcome
  | _ => ⟨.unexpected, st, 0, []⟩

/-- Embeds `/get-solved-links` at the request-body level: same throw-to-500
behaviour for a non-string `filecryptUrl`. -/
def getLinksEndpoint (st : Store) (body : JsonVal) (sid : Option String) :
    GetLinksResp :=
  match body with
  | .jstr url => getSolvedLinks st url sid
  | _ => .unexpected

/-! ## Store lemmas -/

theorem storeGet_storeSet_self (st : Store) (k : String) (v : Session) :
    storeGet (storeSet st k v) k = some v := by
  induction st with
  | nil => simp [storeSet, storeGet]
  | cons e rest ih =>
    by_cases he : e.1 = k
    · simp [storeSet, he, storeGet]
    · simp [storeSet, he, storeGet, ih]

/-- After `getFileCryptSession`, the store maps the site id to exactly the
session that was returned (the code either returns the stored session or
stores the fresh one before returning it). -/
theorem storeGet_after_getFileCryptSession (st : Store) (fid : String)
    (now : Nat) (nid : String) (nb : Nat) :
    storeGet ((getFileCryptSession st fid now nid nb).2.1) fid =
      some ((getFileCryptSession st fid now nid nb).1) := by
  unfold getFileCryptSession
  cases hg : storeGet st fid with
  | none => simpa using storeGet_storeSet_self st fid ⟨nid, fid, nb, now, []⟩
  | some s =>
    by_cases hv : now - s.createdAt < threshold
    · simpa [hv] using hg
    · simpa [hv] using
        storeGet_storeSet_self (storeDelete st fid) fid ⟨nid, fid, nb, now, []⟩

/-! ## Claim C2 -/

/-- C2 — `getFileCryptSession` never returns a session 30 minutes old or
older; when the stored session's age exceeds the threshold, its browser
handle's close is attempted exactly once, the entry is removed, and a fresh
session with empty `solvedLinks` is stored and returned. -/
theorem getFileCryptSession_expired_refresh (st : Store) (fid : String)
    (now : Nat) (nid : String) (nb : Nat) (s : Session)
    (hget : storeGet st fid = some s)
    (hexp : threshold < now - s.createdAt) :
    getFileCryptSession st fid now nid nb =
      (⟨nid, fid, nb, now, []⟩,
       storeSet (storeDelete st fid) fid ⟨nid, fid, nb, now, []⟩,
       [s.browser]) ∧
    ∀ st2 fid2 now2 nid2 nb2,
      now2 - (getFileCryptSession st2 fid2 now2 nid2 nb2).1.createdAt
        < threshold := by
  constructor
  · simp only [getFileCryptSession, hget]
    rw [if_neg (by omega)]
  · intro st2 fid2 now2 nid2 nb2
    unfold getFileCryptSession
    cases hg : storeGet st2 fid2 with
    | none => simp [threshold]
    | some s2 =>
      dsimp only
      by_cases hv : now2 - s2.createdAt < threshold
      · rw [if_pos hv]
        exact hv
      · rw [if_neg hv]
        simp [threshold]

/-- Witness for C2 at a concrete expired store. -/
theorem getFileCryptSession_expired_refresh_witness :
    getFileCryptSession [("A", ⟨"old", "A", 5, 0, [⟨"u", "t"⟩]⟩)] "A"
        1800001 "new" 7 =
      (⟨"new", "A", 7, 1800001, []⟩,
       [("A", ⟨"new", "A", 7, 1800001, []⟩)], [5]) :=
  ((getFileCryptSession_expired_refresh
      [("A", ⟨"old", "A", 5, 0, [⟨"u", "t"⟩]⟩)] "A" 1800001 "new" 7
      ⟨"old", "A", 5, 0, [⟨"u", "t"⟩]⟩ (by decide) (by decide)).1).trans
    (by decide)

/-! ## Claim C3 -/

/-- C3 — `sweep` removes exactly the sessions strictly older than the
30-minute threshold (surviving entries, including their links, are
unchanged and in order), returns the number removed, and an immediate
second sweep at the same instant removes zero. -/
theorem sweep_removes_exactly_expired (st : Store) (now : Nat) :
    (sweep st now).1 =
      st.filter (fun e => !decide (threshold < now - e.2.createdAt)) ∧
    (sweep st now).2.1 =
      (st.filter (fun e => decide (threshold < now - e.2.createdAt))).length ∧
    (sweep (sweep st now).1 now).2.1 = 0 := by
  induction st with
  | nil => simp [sweep]
  | cons e rest ih =>
    obtain ⟨k, s⟩ := e
    by_cases h : threshold < now - s.createdAt
    · refine ⟨?_, ?_, ?_⟩
      · simp [sweep, h, ih.1]
      · simp [sweep, h, ih.2.1]
      · simp only [sweep, if_pos h]
        exact ih.2.2
    · refine ⟨?_, ?_, ?_⟩
      · simp [sweep, h, ih.1]
      · simp [sweep, h, ih.2.1]
      · simp only [sweep, if_neg h]
        simpa [sweep, h] using ih.2.2

/-! ## Regex lemmas -/

theorem matchLitCI_self (lit rest : List Char) :
    matchLitCI lit (lit ++ rest) = some rest := by
  induction lit with
  | nil => rfl
  | cons c cs ih => simp [matchLitCI, ciEq, ih]

theorem takeAlnum_all (l : List Char) (h : ∀ c ∈ l, isAlnumAscii c = true) :
    takeAlnum l = (l, []) := by
  induction l with
  | nil => rfl
  | cons c cs ih =>
    simp [takeAlnum, h c (by simp), ih (fun d hd => h d (by simp [hd]))]

theorem matchAt_container (X : List Char) (hne : X ≠ [])
    (h : ∀ c ∈ X, isAlnumAscii c = true) :
    matchAt (litSite ++ (litContainer ++ X)) = some (String.mk X) := by
  have ht := takeAlnum_all X h
  simp only [matchAt, matchLitCI_self, ht]
  cases X with
  | nil => exact absurd rfl hne
  | cons c cs => rfl

theorem matchAt_link (X : List Char) (hne : X ≠ [])
    (h : ∀ c ∈ X, isAlnumAscii c = true) :
    matchAt (litSite ++ (litLink ++ X)) = some (String.mk X) := by
  have ht := takeAlnum_all X h
  have hCL : ciEq 'C' 'L' = false := by decide
  have hcont : matchLitCI litContainer (litLink ++ X) = none := by
    simp [litContainer, litLink, matchLitCI, hCL]
  simp only [matchAt, matchLitCI_self, hcont, ht]
  cases X with
  | nil => exact absurd rfl hne
  | cons c cs => rfl

theorem matchAt_headNe (c : Char) (cs : List Char) (h : ciEq 'f' c = false) :
    matchAt (c :: cs) = none := by
  unfold matchAt litSite
  simp [matchLitCI, h]

theorem scanMatch_skip (pre l : List Char)
    (h : ∀ c ∈ pre, ciEq 'f' c = false) :
    scanMatch (pre ++ l) = scanMatch l := by
  induction pre with
  | nil => rfl
  | cons c cs ih =>
    have hc : matchAt (c :: (cs ++ l)) = none := matchAt_headNe c _ (h c (by simp))
    simp [scanMatch, hc, ih (fun d hd => h d (by simp [hd]))]

theorem scanMatch_cons_some (c : Char) (cs : List Char) (s : String)
    (h : matchAt (c :: cs) = some s) : scanMatch (c :: cs) = some s := by
  simp [scanMatch, h]

theorem data_ne_nil_of_ne_empty (X : String) (hne : X ≠ "") : X.data ≠ [] := by
  intro hd
  exact hne (by cases X; simp_all)

theorem extract_container (X : String) (hne : X ≠ "")
    (h : ∀ c ∈ X.data, isAlnumAscii c = true) :
    extractFilecryptId ("https://filecrypt.co/Container/" ++ X) = some X := by
  unfold extractFilecryptId
  have hlit : "https://filecrypt.co/Container/".data =
      ['h', 't', 't', 'p', 's', ':', '/', '/'] ++ (litSite ++ litContainer) := by
    decide
  have hdata : ("https://filecrypt.co/Container/" ++ X).data =
      ['h', 't', 't', 'p', 's', ':', '/', '/'] ++
        (litSite ++ (litContainer ++ X.data)) := by
    rw [String.data_append, hlit]
    simp [List.append_assoc]
  rw [hdata, scanMatch_skip _ _ (by decide)]
  exact scanMatch_cons_some _ _ _
    (matchAt_container X.data (data_ne_nil_of_ne_empty X hne) h)

theorem extract_link (X : String) (hne : X ≠ "")
    (h : ∀ c ∈ X.data, isAlnumAscii c = true) :
    extractFilecryptId ("https://filecrypt.co/Link/" ++ X) = some X := by
  unfold extractFilecryptId
  have hlit : "https://filecrypt.co/Link/".data =
      ['h', 't', 't', 'p', 's', ':', '/', '/'] ++ (litSite ++ litLink) := by
    decide
  have hdata : ("https://filecrypt.co/Link/" ++ X).data =
      ['h', 't', 't', 'p', 's', ':', '/', '/'] ++
        (litSite ++ (litLink ++ X.data)) := by
    rw [String.data_append, hlit]
    simp [List.append_assoc]
  rw [hdata, scanMatch_skip _ _ (by decide)]
  exact scanMatch_cons_some _ _ _
    (matchAt_link X.data (data_ne_nil_of_ne_empty X hne) h)

/-! ## Claim C4 -/

/-- C4 — for every alphanumeric id `X`, the `Container/X` and `Link/X` URL
styles parse to the same site id, and a second `getFileCryptSession` call on
that site id while the first returned session is live hands back the very
same session (same id) without touching the store or any browser. -/
theorem container_link_same_siteId_and_session (X : String) (hne : X ≠ "")
    (h : ∀ c ∈ X.data, isAlnumAscii c = true)
    (st : Store) (now now2 : Nat) (nid nid2 : String) (nb nb2 : Nat) :
    extractFilecryptId ("https://filecrypt.co/Container/" ++ X) = some X ∧
    extractFilecryptId ("https://filecrypt.co/Link/" ++ X) = some X ∧
    (now2 - (getFileCryptSession st X now nid nb).1.createdAt < threshold →
      getFileCryptSession (getFileCryptSession st X now nid nb).2.1 X
          now2 nid2 nb2 =
        ((getFileCryptSession st X now nid nb).1,
         (getFileCryptSession st X now nid nb).2.1, [])) := by
  refine ⟨extract_container X hne h, extract_link X hne h, ?_⟩
  intro hlive
  have hg := storeGet_after_getFileCryptSession st X now nid nb
  generalize hG : getFileCryptSession st X now nid nb = G at hg hlive ⊢
  simp only [getFileCryptSession, hg]
  rw [if_pos hlive]

/-- Witness for C4 at `X = "ABC123"` on the empty store. -/
theorem container_link_same_siteId_and_session_witness :
    extractFilecryptId ("https://filecrypt.co/Container/" ++ "ABC123") =
      some "ABC123" ∧
    extractFilecryptId ("https://filecrypt.co/Link/" ++ "ABC123") =
      some "ABC123" ∧
    (5 - (getFileCryptSession [] "ABC123" 0 "n1" 3).1.createdAt < threshold →
      getFileCryptSession (getFileCryptSession [] "ABC123" 0 "n1" 3).2.1
          "ABC123" 5 "n2" 4 =
        ((getFileCryptSession [] "ABC123" 0 "n1" 3).1,
         (getFileCryptSession [] "ABC123" 0 "n1" 3).2.1, [])) :=
  container_link_same_siteId_and_session "ABC123" (by decide) (by decide)
    [] 0 5 "n1" "n2" 3 4

/-! ## Link-map lemmas -/

theorem mapGet_mapSet (m : List LinkRec) (l : LinkRec) (u : String) :
    mapGet (mapSet m l) u = if l.url = u then some l else mapGet m u := by
  induction m with
  | nil => simp [mapSet, mapGet]
  | cons r rest ih =>
    simp only [mapSet]
    by_cases hr : r.url = l.url
    · rw [if_pos hr]
      by_cases hu : l.url = u
      · simp [mapGet, hu]
      · have hru : ¬r.url = u := fun he => hu (hr.symm.trans he)
        simp [mapGet, hu, hru]
    · rw [if_neg hr]
      by_cases hru : r.url = u
      · have hu : ¬l.url = u := fun he => hr (hru.trans he.symm)
        simp [mapGet, hru, hu]
      · simp [mapGet, hru, ih]

theorem mapGet_mergeLinks (links : List LinkRec) (m : List LinkRec)
    (u : String) :
    mapGet (mergeLinks m links) u =
      match lastByUrl links u with
      | some l => some l
      | none => mapGet m u := by
  induction links generalizing m with
  | nil => simp [mergeLinks, lastByUrl]
  | cons l ls ih =>
    have hfold : mergeLinks m (l :: ls) = mergeLinks (mapSet m l) ls := rfl
    have hlast : lastByUrl (l :: ls) u =
        (lastByUrl ls u).or (List.find? (fun r => r.url == u) [l]) := by
      simp [lastByUrl, List.find?_append]
    rw [hfold, ih, hlast]
    cases hls : lastByUrl ls u with
    | some r => rfl
    | none =>
      rw [mapGet_mapSet]
      by_cases hu : l.url = u
      · have hbeq : (l.url == u) = true := by simp [hu]
        simp [List.find?, hbeq, hu]
      · have hbeq : (l.url == u) = false := by simp [hu]
        simp [List.find?, hbeq, hu]

/-! ## Claim C5 -/

/-- C5 — when the link poll times out, the page is closed, the response is
the timeout failure carrying the session id, the store is exactly as
`getFileCryptSession` left it (the session's `solvedLinks` untouched), and a
follow-up `get-solved-links` on the same URL still returns every previously
accumulated link. -/
theorem solve_timeout_preserves_links (st : Store) (url : String) (now : Nat)
    (nid : String) (nb : Nat) (fid : String)
    (h : extractFilecryptId url = some fid) :
    (solveFilecrypt st url now nid nb .timeout).resp =
      .timedOut (getFileCryptSession st fid now nid nb).1.id ∧
    (solveFilecrypt st url now nid nb .timeout).pagesClosed = 1 ∧
    (solveFilecrypt st url now nid nb .timeout).store =
      (getFileCryptSession st fid now nid nb).2.1 ∧
    getSolvedLinks (solveFilecrypt st url now nid nb .timeout).store url
        none =
      .ok (getFileCryptSession st fid now nid nb).1.solvedLinks
        (getFileCryptSession st fid now nid nb).1.id := by
  have hg := storeGet_after_getFileCryptSession st fid now nid nb
  unfold solveFilecrypt
  rw [h]
  dsimp only
  refine ⟨rfl, rfl, rfl, ?_⟩
  unfold getSolvedLinks
  rw [h]
  dsimp only
  rw [hg]
  simp [sidMismatch]

/-- Witness for C5 on a store holding a live session with one link. -/
theorem solve_timeout_preserves_links_witness :
    (solveFilecrypt [("A", ⟨"sid", "A", 5, 0, [⟨"u", "t"⟩]⟩)]
        "https://filecrypt.co/Link/A" 10 "n1" 3 .timeout).resp =
      .timedOut (getFileCryptSession [("A", ⟨"sid", "A", 5, 0, [⟨"u", "t"⟩]⟩)]
        "A" 10 "n1" 3).1.id ∧
    (solveFilecrypt [("A", ⟨"sid", "A", 5, 0, [⟨"u", "t"⟩]⟩)]
        "https://filecrypt.co/Link/A" 10 "n1" 3 .timeout).pagesClosed = 1 ∧
    (solveFilecrypt [("A", ⟨"sid", "A", 5, 0, [⟨"u", "t"⟩]⟩)]
        "https://filecrypt.co/Link/A" 10 "n1" 3 .timeout).store =
      (getFileCryptSession [("A", ⟨"sid", "A", 5, 0, [⟨"u", "t"⟩]⟩)]
        "A" 10 "n1" 3).2.1 ∧
    getSolvedLinks (solveFilecrypt [("A", ⟨"sid", "A", 5, 0, [⟨"u", "t"⟩]⟩)]
        "https://filecrypt.co/Link/A" 10 "n1" 3 .timeout).store
        "https://filecrypt.co/Link/A" none =
      .ok (getFileCryptSession [("A", ⟨"sid", "A", 5, 0, [⟨"u", "t"⟩]⟩)]
            "A" 10 "n1" 3).1.solvedLinks
        (getFileCryptSession [("A", ⟨"sid", "A", 5, 0, [⟨"u", "t"⟩]⟩)]
            "A" 10 "n1" 3).1.id :=
  solve_timeout_preserves_links [("A", ⟨"sid", "A", 5, 0, [⟨"u", "t"⟩]⟩)]
    "https://filecrypt.co/Link/A" 10 "n1" 3 "A" (by decide)

/-! ## Claim C8 -/

/-- C8 — on a successful extraction, every extracted record is merged into
the session's `solvedLinks` keyed by url with last-write-wins (records for
other urls are preserved), and the response carries exactly the freshly
extracted list plus the session id. -/
theorem solve_success_merge (st : Store) (url : String) (now : Nat)
    (nid : String) (nb : Nat) (fid : String) (links : List LinkRec)
    (h : extractFilecryptId url = some fid) :
    (solveFilecrypt st url now nid nb (.success links)).resp =
      .ok links (getFileCryptSession st fid now nid nb).1.id ∧
    storeGet (solveFilecrypt st url now nid nb (.success links)).store fid =
      some ⟨(getFileCryptSession st fid now nid nb).1.id,
            (getFileCryptSession st fid now nid nb).1.filecryptId,
            (getFileCryptSession st fid now nid nb).1.browser,
            (getFileCryptSession st fid now nid nb).1.createdAt,
            mergeLinks (getFileCryptSession st fid now nid nb).1.solvedLinks
              links⟩ ∧
    ∀ u, mapGet
        (mergeLinks (getFileCryptSession st fid now nid nb).1.solvedLinks
          links) u =
      match lastByUrl links u with
      | some l => some l
      | none =>
        mapGet (getFileCryptSession st fid now nid nb).1.solvedLinks u := by
  unfold solveFilecrypt
  rw [h]
  dsimp only
  exact ⟨rfl, storeGet_storeSet_self _ _ _,
    fun u => mapGet_mergeLinks links _ u⟩

/-- Witness for C8: a session with one stored link receives two fresh
records, one overwriting the stored url. -/
theorem solve_success_merge_witness :
    (solveFilecrypt [("A", ⟨"sid", "A", 5, 0, [⟨"u", "old"⟩]⟩)]
        "https://filecrypt.co/Link/A" 10 "n1" 3
        (.success [⟨"u", "new"⟩, ⟨"v", "w"⟩])).resp =
      .ok [⟨"u", "new"⟩, ⟨"v", "w"⟩]
        (getFileCryptSession [("A", ⟨"sid", "A", 5, 0, [⟨"u", "old"⟩]⟩)]
          "A" 10 "n1" 3).1.id ∧
    storeGet (solveFilecrypt [("A", ⟨"sid", "A", 5, 0, [⟨"u", "old"⟩]⟩)]
        "https://filecrypt.co/Link/A" 10 "n1" 3
        (.success [⟨"u", "new"⟩, ⟨"v", "w"⟩])).store "A" =
      some ⟨(getFileCryptSession [("A", ⟨"sid", "A", 5, 0, [⟨"u", "old"⟩]⟩)]
              "A" 10 "n1" 3).1.id,
            (getFileCryptSession [("A", ⟨"sid", "A", 5, 0, [⟨"u", "old"⟩]⟩)]
              "A" 10 "n1" 3).1.filecryptId,
            (getFileCryptSession [("A", ⟨"sid", "A", 5, 0, [⟨"u", "old"⟩]⟩)]
              "A" 10 "n1" 3).1.browser,
            (getFileCryptSession [("A", ⟨"sid", "A", 5, 0, [⟨"u", "old"⟩]⟩)]
              "A" 10 "n1" 3).1.createdAt,
            mergeLinks (getFileCryptSession
                [("A", ⟨"sid", "A", 5, 0, [⟨"u", "old"⟩]⟩)]
                "A" 10 "n1" 3).1.solvedLinks
              [⟨"u", "new"⟩, ⟨"v", "w"⟩]⟩ ∧
    ∀ u, mapGet
        (mergeLinks (getFileCryptSession
            [("A", ⟨"sid", "A", 5, 0, [⟨"u", "old"⟩]⟩)]
            "A" 10 "n1" 3).1.solvedLinks
          [⟨"u", "new"⟩, ⟨"v", "w"⟩]) u =
      match lastByUrl [⟨"u", "new"⟩, ⟨"v", "w"⟩] u with
      | some l => some l
      | none =>
        mapGet (getFileCryptSession
            [("A", ⟨"sid", "A", 5, 0, [⟨"u", "old"⟩]⟩)]
            "A" 10 "n1" 3).1.solvedLinks u :=
  solve_success_merge [("A", ⟨"sid", "A", 5, 0, [⟨"u", "old"⟩]⟩)]
    "https://filecrypt.co/Link/A" 10 "n1" 3 "A" [⟨"u", "new"⟩, ⟨"v", "w"⟩]
    (by decide)

/-! ## Claim C1 -/

/-- C1 counterexample — a session that is 30 minutes stale (created at 0,
current time `1800001 > threshold`) is still stored, and `get-solved-links`
happily returns its links instead of `NotFound`: the handler checks presence
only and takes no time input at all. -/
theorem getSolvedLinks_expired_returns_links :
    threshold <
      1800001 - (⟨"sid-1", "ABC123", 5, 0, [⟨"u", "t"⟩]⟩ : Session).createdAt ∧
    getSolvedLinks [("ABC123", ⟨"sid-1", "ABC123", 5, 0, [⟨"u", "t"⟩]⟩)]
        "https://filecrypt.co/Container/ABC123" none =
      .ok [⟨"u", "t"⟩] "sid-1" := by
  decide

/-- C1 (amended) — `get-solved-links` fails with `NotFound` exactly when the
parsed site id has no entry in the store; presence is tested with no expiry
check, so a stale-but-stored session's links are still served. -/
theorem getSolvedLinks_notFound_iff_absent (st : Store) (url : String)
    (sid : Option String) (fid : String)
    (h : extractFilecryptId url = some fid) :
    getSolvedLinks st url sid = .notFound ↔ storeGet st fid = none := by
  unfold getSolvedLinks
  rw [h]
  dsimp only
  cases hs : storeGet st fid with
  | none => simp
  | some s =>
    by_cases hm : sidMismatch s.id sid = true
    · simp [hm]
    · simp [hm]

/-- Witness for the amended C1 on the empty store. -/
theorem getSolvedLinks_notFound_iff_absent_witness :
    getSolvedLinks [] "https://filecrypt.co/Link/AB" none =
        GetLinksResp.notFound ↔
      storeGet [] "AB" = none :=
  getSolvedLinks_notFound_iff_absent [] "https://filecrypt.co/Link/AB" none
    "AB" (by decide)

/-! ## Claim C6 -/

/-- C6 — a `filecryptUrl` the regex does not match anywhere makes both
endpoints answer 400 `InvalidInput` at once: no page is opened, no browser
close is attempted, and the store is returned unchanged. -/
theorem invalid_url_no_effects (st : Store) (url : String) (now : Nat)
    (nid : String) (nb : Nat) (outcome : ExtractOutcome) (sid : Option String)
    (h : extractFilecryptId url = none) :
    solveFilecrypt st url now nid nb outcome = ⟨.invalid, st, 0, []⟩ ∧
    solveStatus .invalid = 400 ∧
    getSolvedLinks st url sid = .invalid ∧
    getLinksStatus .invalid = 400 := by
  refine ⟨?_, rfl, ?_, rfl⟩
  · unfold solveFilecrypt
    rw [h]
  · unfold getSolvedLinks
    rw [h]

/-- Witness for C6 on a URL with no FileCrypt pattern. -/
theorem invalid_url_no_effects_witness :
    solveFilecrypt [] "https://example.com/x" 0 "n1" 3 .timeout =
      ⟨.invalid, [], 0, []⟩ ∧
    solveStatus .invalid = 400 ∧
    getSolvedLinks [] "https://example.com/x" none = .invalid ∧
    getLinksStatus .invalid = 400 :=
  invalid_url_no_effects [] "https://example.com/x" 0 "n1" 3 .timeout none
    (by decide)

/-! ## Claim C7 -/

/-- C7 counterexample — the empty string is a supplied `sessionId` that
differs from the stored id, yet the request is served (JavaScript `""` is
falsy, so the guard `sessionId && session.id !== sessionId` is skipped). -/
theorem empty_sessionId_not_forbidden :
    ("" : String) ≠ "sid-1" ∧
    getSolvedLinks [("AB", ⟨"sid-1", "AB", 4, 0, [⟨"u", "t"⟩]⟩)]
        "https://filecrypt.co/Link/AB" (some "") =
      .ok [⟨"u", "t"⟩] "sid-1" := by
  decide

/-- C7 (amended) — a supplied NON-EMPTY `sessionId` differing from the
stored session's id yields 403 `Forbidden` without links; a supplied
`sessionId` equal to the stored id yields the full `solvedLinks` list with
the session id. -/
theorem mismatched_nonempty_sessionId_forbidden (st : Store) (url : String)
    (fid : String) (s : Session) (sid : String)
    (h : extractFilecryptId url = some fid)
    (hs : storeGet st fid = some s) :
    (sid ≠ "" → s.id ≠ sid →
      getSolvedLinks st url (some sid) = .forbidden ∧
      getLinksStatus .forbidden = 403) ∧
    getSolvedLinks st url (some s.id) = .ok s.solvedLinks s.id := by
  constructor
  · intro h1 h2
    refine ⟨?_, rfl⟩
    unfold getSolvedLinks
    rw [h]
    dsimp only
    rw [hs]
    simp [sidMismatch, h1, h2]
  · unfold getSolvedLinks
    rw [h]
    dsimp only
    rw [hs]
    simp [sidMismatch]

/-- Witness for the amended C7 with a concrete mismatching id. -/
theorem mismatched_nonempty_sessionId_forbidden_witness :
    (("other" : String) ≠ "" →
      (⟨"sid-1", "AB", 4, 0, [⟨"u", "t"⟩]⟩ : Session).id ≠ "other" →
      getSolvedLinks [("AB", ⟨"sid-1", "AB", 4, 0, [⟨"u", "t"⟩]⟩)]
          "https://filecrypt.co/Link/AB" (some "other") = .forbidden ∧
      getLinksStatus .forbidden = 403) ∧
    getSolvedLinks [("AB", ⟨"sid-1", "AB", 4, 0, [⟨"u", "t"⟩]⟩)]
        "https://filecrypt.co/Link/AB"
        (some (⟨"sid-1", "AB", 4, 0, [⟨"u", "t"⟩]⟩ : Session).id) =
      .ok [⟨"u", "t"⟩] "sid-1" :=
  mismatched_nonempty_sessionId_forbidden
    [("AB", ⟨"sid-1", "AB", 4, 0, [⟨"u", "t"⟩]⟩)]
    "https://filecrypt.co/Link/AB" "AB" ⟨"sid-1", "AB", 4, 0, [⟨"u", "t"⟩]⟩
    "other" (by decide) (by decide)

/-! ## Claim C9 -/

/-- C9 — a request body whose `filecryptUrl` is missing or not a string
makes `.match` throw, so both endpoints answer 500 `Unexpected` (never the
400 `InvalidInput` reserved for well-typed but malformed URL strings), and
the solve endpoint touches neither store nor browser. -/
theorem nonstring_body_unexpected_500 (st : Store) (now : Nat) (nid : String)
    (nb : Nat) (outcome : ExtractOutcome) (sid : Option String) :
    solveEndpoint st .jmissing now nid nb outcome =
      ⟨.unexpected, st, 0, []⟩ ∧
    solveEndpoint st .jother now nid nb outcome =
      ⟨.unexpected, st, 0, []⟩ ∧
    getLinksEndpoint st .jmissing sid = .unexpected ∧
    getLinksEndpoint st .jother sid = .unexpected ∧
    solveStatus .unexpected = 500 ∧
    getLinksStatus .unexpected = 500 ∧
    solveStatus .invalid = 400 ∧
    getLinksStatus .invalid = 400 :=
  ⟨rfl, rfl, rfl, rfl, rfl, rfl, rfl, rfl⟩

/-! ## Claim C10 -/

/-- C10 — supplying the empty string as `sessionId` for a stored session
skips the id verification (only a non-empty id is compared), so the request
succeeds with the session's links. -/
theorem empty_sessionId_skips_check (st : Store) (url : String)
    (fid : String) (s : Session)
    (h : extractFilecryptId url = some fid)
    (hs : storeGet st fid = some s) :
    getSolvedLinks st url (some "") = .ok s.solvedLinks s.id := by
  unfold getSolvedLinks
  rw [h]
  dsimp only
  rw [hs]
  simp [sidMismatch]

/-- Witness for C10 on a store whose session id is non-empty. -/
theorem empty_sessionId_skips_check_witness :
    getSolvedLinks [("CD", ⟨"sid-9", "CD", 4, 0, [⟨"u", "t"⟩]⟩)]
        "https://filecrypt.co/Container/CD" (some "") =
      .ok [⟨"u", "t"⟩] "sid-9" :=
  empty_sessionId_skips_check
    [("CD", ⟨"sid-9", "CD", 4, 0, [⟨"u", "t"⟩]⟩)]
    "https://filecrypt.co/Container/CD" "CD"
    ⟨"sid-9", "CD", 4, 0, [⟨"u", "t"⟩]⟩ (by decide) (by decide)
